import Mathlib

/-!
Verification development for django-remote-forms (src/django_remote_forms/forms.py).

The single source file defines class RemoteForm with:
  - __init__ (lines 10-80): directive validation and resolution of the ordered
    field list, plus fieldset validation;
  - as_dict (lines 82-176): assembly of the export dictionary;
  - parse_layout / parse_layout_class / keys_case / parse_flat_attrs
    (lines 178-231): the crispy-forms layout tree parser.

Modelling conventions:
  - Python values appearing in the export are modelled by the inductive `Val`
    (None, bools, strings, integers, lists, string-keyed dicts).
  - Python dicts are modelled as association lists (`List (String × Val)`)
    with `alistGet` (first binding wins, as in a dict with unique keys) and
    `alistInsert` (replace in place if the key exists, else append - exactly
    the CPython dict update semantics for ordered dicts).
  - Python sets (the exclude/include/readonly directives) are modelled as
    `List String`.  The code observes them only through membership, emptiness,
    subset tests, union and difference, all of which are membership-faithful
    on lists, so no quotient by duplication/order is needed.
  - Warnings (logger.warning) are side effects with no influence on the
    result; they are outside the model.
  - Exceptions are modelled with `Except String`; a raised exception that the
    code does not catch becomes `Except.error`.
-/

namespace DjangoRemoteForms

/-- A serializable Python value: None, bool, str, int, list, or a
string-keyed dict (kept ordered, as an association list). -/
inductive Val : Type where
  | vnone : Val
  | bool : Bool → Val
  | str : String → Val
  | num : Int → Val
  | list : List Val → Val
  | dict : List (String × Val) → Val

/-- Dict lookup: the first binding of the key, if any (dicts built by the
code have unique keys, so this is exactly Python dict indexing). -/
def alistGet {α : Type} (k : String) : List (String × α) → Option α
  | [] => Option.none
  | (k2, v) :: rest => if k2 = k then some v else alistGet k rest

/-- Dict assignment d[k] = v: replace the binding in place when the key is
present (Python dicts keep the original key position), else append. -/
def alistInsert {α : Type} (d : List (String × α)) (k : String) (v : α) : List (String × α) :=
  match d with
  | [] => [(k, v)]
  | (k2, w) :: rest => if k2 = k then (k, v) :: rest else (k2, w) :: alistInsert rest k v

/-- Dict update d.update(e): assign every binding of e into d, in order. -/
def alistUpdate {α : Type} (d e : List (String × α)) : List (String × α) :=
  e.foldl (fun acc p => alistInsert acc p.1 p.2) d

/-- One field of the form, seen through the per-type serialization capability
(lines 150-158).  `serialize v` is given the form-level initial override
(form.initial.get(name), None when absent) and models the whole dispatch:
`Option.none` means the capability lookup (getattr on the fields module) or
the RemoteField constructor raised - the code catches that; `some r` is the
outcome of remote_field.as_dict(), whose error the code does NOT catch. -/
structure FieldRecord : Type where
  serialize : Val → Option (Except String (List (String × Val)))

/-- The _meta information of a ModelForm (lines 20-23): getattr(_meta,
"fields") and getattr(_meta, "exclude"), each possibly None. -/
structure MetaInfo : Type where
  metaFields : Option (List String)
  metaExclude : Option (List String)

/-- One entry of a fieldsets declaration: a (name, data) pair where data may
carry a "fields" list (lines 70-72 read only that key, so other attributes
of the data dict are not modelled). -/
structure FieldsetEntry : Type where
  fsName : String
  fsFields : Option (List String)
deriving DecidableEq

/-- A crispy-forms layout object, by the isinstance classification of
parse_layout_class (lines 190-217): a Layout root, a Div-like container
(class name, pre-parsed flat_attrs string, css_class, children), a Field
reference (class name, wrapped field names, attrs), a raw dict, or a plain
string (what Field children actually are, reached only when a Field subclass
does not slugify to "field").  flat_attrs is stored as its parsed key/value
list; parse_flat_attrs (XML attribute parsing) is modelled as that list. -/
inductive LayoutObj : Type where
  | layoutRoot (className : String) (children : List LayoutObj)
  | divObj (className : String) (flatAttrs : List (String × String)) (cssClass : String)
      (children : List LayoutObj)
  | fieldObj (className : String) (fieldRefs : List String) (attrs : List (String × String))
  | dictObj (entries : List (String × Val))
  | strObj (s : String)

/-- The form.helper attribute when present: whether it is a FormHelper
instance and its layout attribute (lines 126-131). -/
structure HelperInfo : Type where
  isFormHelper : Bool
  helperLayout : Option LayoutObj

/-- The Django form consumed by RemoteForm, reduced to what forms.py reads:
the ordered field mapping, metadata for the top-level keys, the submitted
data and initial mappings, the optional ModelForm _meta, the optional form
level fieldsets attribute (line 117), and the optional crispy helper. -/
structure Form : Type where
  fields : List (String × FieldRecord)
  title : String
  nonFieldErrors : List String
  labelSuffix : String
  isBound : Bool
  prefixStr : Option String
  errorsVal : Val
  fieldsetsAttr : Option Val
  dataMap : List (String × Val)
  initialMap : List (String × Val)
  meta : Option MetaInfo
  helper : Option HelperInfo

/-- The caller-supplied keyword directives of RemoteForm.__init__
(lines 15-18 and 25).  `incl` is the `include` kwarg (a Lean keyword). -/
structure Directives : Type where
  exclude : List String
  incl : List String
  readonly : List String
  ordering : List String
  fieldsets : List FieldsetEntry

/-- The state RemoteForm.__init__ leaves behind: the validated directive
sets, the iteration order, the validated fieldsets and the resolved field
list self.fields. -/
structure RemoteForm : Type where
  form : Form
  all_fields : List String
  excluded_fields : List String
  included_fields : List String
  readonly_fields : List String
  ordered_fields : List String
  fieldsets : List FieldsetEntry
  fields : List String

/-- Line 13: self.all_fields = set(self.form.fields.keys()). -/
def allFieldNames (form : Form) : List String := form.fields.map Prod.fst

/-- Lines 20-23, include part: for a ModelForm with _meta, an empty include
directive defaults to _meta.fields (Python `or`, with None coalesced to []). -/
def included0 (form : Form) (d : Directives) : List String :=
  match form.meta with
  | some m => if d.incl ≠ [] then d.incl else m.metaFields.getD []
  | _ => d.incl

/-- Lines 20-23, exclude part: same defaulting from _meta.exclude. -/
def excluded0 (form : Form) (d : Directives) : List String :=
  match form.meta with
  | some m => if d.exclude ≠ [] then d.exclude else m.metaExclude.getD []
  | _ => d.exclude

/-- Lines 28-42: a non-empty directive that is not a subset of all_fields is
reset to empty (after a warning); otherwise it is kept unchanged. -/
def validateDirective (dir all : List String) : List String :=
  if dir ≠ [] ∧ ¬ (∀ x ∈ dir, x ∈ all) then [] else dir

/-- Line 28-30 outcome for the exclude set. -/
def excludedV (form : Form) (d : Directives) : List String :=
  validateDirective (excluded0 form d) (allFieldNames form)

/-- Line 32-34 outcome for the include set. -/
def includedV (form : Form) (d : Directives) : List String :=
  validateDirective (included0 form d) (allFieldNames form)

/-- Line 36-38 outcome for the readonly set. -/
def readonlyV (form : Form) (d : Directives) : List String :=
  validateDirective d.readonly (allFieldNames form)

/-- Line 40-42 outcome for the ordering sequence. -/
def orderedV (form : Form) (d : Directives) : List String :=
  validateDirective d.ordering (allFieldNames form)

/-- Lines 44-47: `if self.included_fields | self.excluded_fields:` - the
condition is the truthiness of the UNION, i.e. it fires whenever either set
is non-empty, and then resets both to empty. -/
def includedFinal (form : Form) (d : Directives) : List String :=
  if includedV form d ≠ [] ∨ excludedV form d ≠ [] then [] else includedV form d

/-- Lines 44-50: the exclude set after the union-reset of lines 44-47 and the
extension `excluded |= included - all_fields` of line 50. -/
def excludedFinal (form : Form) (d : Directives) : List String :=
  (if includedV form d ≠ [] ∨ excludedV form d ≠ [] then [] else excludedV form d)
    ++ (includedFinal form d).filter (fun n => n ∉ allFieldNames form)

/-- Lines 52-56: when the validated ordering is empty, fall back to the form
field mapping keys (keyOrder and keys() agree: the declared field order). -/
def orderedFinal (form : Form) (d : Directives) : List String :=
  if orderedV form d = [] then allFieldNames form else orderedV form d

/-- Lines 58-65: the resolved field list - iterate the chosen order, skipping
names in the final exclude set. -/
def resolvedFields (form : Form) (d : Directives) : List String :=
  (orderedFinal form d).filter (fun n => n ∉ excludedFinal form d)

/-- Lines 68-72: the union of the "fields" lists over all fieldset entries. -/
def fieldsetFieldNames (d : Directives) : List String :=
  (d.fieldsets.map (fun e => e.fsFields.getD [])).flatten

/-- Lines 74-80: the fieldsets survive only when their field names are a
subset of all_fields and a subset of the resolved field list; otherwise the
whole declaration is discarded (both checks run in sequence). -/
def fieldsetsFinal (form : Form) (d : Directives) : List FieldsetEntry :=
  let fs1 := if ¬ (∀ x ∈ fieldsetFieldNames d, x ∈ allFieldNames form) then [] else d.fieldsets
  if ¬ (∀ x ∈ fieldsetFieldNames d, x ∈ resolvedFields form d) then [] else fs1

/-- RemoteForm.__init__ (lines 10-80), assembled from the step functions. -/
def remoteFormInit (form : Form) (d : Directives) : RemoteForm :=
  { form := form
    all_fields := allFieldNames form
    excluded_fields := excludedFinal form d
    included_fields := includedFinal form d
    readonly_fields := readonlyV form d
    ordered_fields := orderedFinal form d
    fieldsets := fieldsetsFinal form d
    fields := resolvedFields form d }

/-- ASCII lowercase of one character (class names are ASCII identifiers). -/
def asciiLower (c : Char) : Char :=
  if 65 ≤ c.toNat ∧ c.toNat ≤ 90 then Char.ofNat (c.toNat + 32) else c

/-- Model of django.utils.text.slugify as applied to Python class names
(lines 190-195): class names are ASCII identifiers without spaces, on which
slugify is just lowercasing ("Div" to "div", "Field" to "field", and so
on). -/
def mslugify (s : String) : String := String.mk (s.data.map asciiLower)

/-- keys_case (lines 219-225): rebuild the attribute dict with every hyphen
in a key replaced by an underscore. -/
def keysCase (attrs : List (String × Val)) : List (String × Val) :=
  attrs.foldl (fun acc p => alistInsert acc (p.1.replace "-" "_") p.2) []

/-- A raw string-to-string attribute mapping as a Val dict. -/
def strAttrsVal (l : List (String × String)) : List (String × Val) :=
  l.map (fun p => (p.1, Val.str p.2))

/-- Line 215: `res["attrs"] = self.keys_case(res.get("attrs", {}))`.  When a
raw dict node put a non-dict under "attrs", keys_case calls .items() on it
and raises (uncaught). -/
def finishAttrs (res : List (String × Val)) : Except String (List (String × Val)) :=
  match alistGet "attrs" res with
  | some (Val.dict a) => Except.ok (alistInsert res "attrs" (Val.dict (keysCase a)))
  | some _ => Except.error "AttributeError: object has no attribute items"
  | _ => Except.ok (alistInsert res "attrs" (Val.dict []))

/-- parse_layout_class (lines 190-217): classify the node, build the result
dict with its slugified type tag, then normalize the attrs keys.  A Field
wrapping more than one name raises NotImplementedError (line 203-204); a
Field wrapping no name hits instance.fields[0] and raises IndexError; a node
of unknown type raises NotImplementedError (line 212-213). -/
def parseLayoutClass : LayoutObj → Except String (List (String × Val))
  | .divObj c fa css _ =>
      let attrs := alistInsert (strAttrsVal fa) "class" (Val.str css)
      finishAttrs (alistInsert [("type", Val.str (mslugify c))] "attrs" (Val.dict attrs))
  | .fieldObj c refs attrs =>
      if refs.length > 1 then
        Except.error "NotImplementedError: We only support 1 field at a time in Field object"
      else
        match refs with
        | [] => Except.error "IndexError: list index out of range"
        | f :: _ =>
            finishAttrs (alistInsert (alistInsert [("type", Val.str (mslugify c))]
              "name" (Val.str f)) "attrs" (Val.dict (strAttrsVal attrs)))
  | .dictObj entries =>
      finishAttrs (alistUpdate [("type", Val.str (mslugify "dict"))] entries)
  | .layoutRoot c _ => finishAttrs [("type", Val.str (mslugify c))]
  | .strObj _ => Except.error "NotImplementedError: Unknown layout object str"

/-- Line 184 guard: obj["type"] != "field" compares the type entry with the
string "field". -/
def typeIsField (obj : List (String × Val)) : Bool :=
  match alistGet "type" obj with
  | some (Val.str s) => s = "field"
  | _ => false

mutual
/-- parse_layout (lines 178-188): obj starts as a dict with an empty children
list, updated with the parse_layout_class result; when the node has a fields
attribute and its type tag is not "field", every child is parsed in order
into the children list.  For a fieldObj whose slug is not "field" (a Field
subclass), item.fields is its list of field-name strings, and parse_layout
of a raw string raises the unknown-layout-object error from
parse_layout_class; with no names the children loop is empty.  That branch
is written out directly here (parsing `strObj` always errors). -/
def parseLayout : LayoutObj → Except String Val
  | .layoutRoot c kids =>
      match parseLayoutClass (.layoutRoot c kids) with
      | Except.error e => Except.error e
      | Except.ok res =>
          let obj := alistUpdate [("children", Val.list [])] res
          if typeIsField obj then Except.ok (Val.dict obj)
          else
            match parseLayoutList kids with
            | Except.error e => Except.error e
            | Except.ok cs => Except.ok (Val.dict (alistInsert obj "children" (Val.list cs)))
  | .divObj c fa css kids =>
      match parseLayoutClass (.divObj c fa css kids) with
      | Except.error e => Except.error e
      | Except.ok res =>
          let obj := alistUpdate [("children", Val.list [])] res
          if typeIsField obj then Except.ok (Val.dict obj)
          else
            match parseLayoutList kids with
            | Except.error e => Except.error e
            | Except.ok cs => Except.ok (Val.dict (alistInsert obj "children" (Val.list cs)))
  | .fieldObj c refs attrs =>
      match parseLayoutClass (.fieldObj c refs attrs) with
      | Except.error e => Except.error e
      | Except.ok res =>
          let obj := alistUpdate [("children", Val.list [])] res
          if typeIsField obj then Except.ok (Val.dict obj)
          else
            match refs with
            | [] => Except.ok (Val.dict (alistInsert obj "children" (Val.list [])))
            | _ :: _ => Except.error "NotImplementedError: Unknown layout object str"
  | .dictObj entries =>
      match parseLayoutClass (.dictObj entries) with
      | Except.error e => Except.error e
      | Except.ok res => Except.ok (Val.dict (alistUpdate [("children", Val.list [])] res))
  | .strObj s =>
      match parseLayoutClass (.strObj s) with
      | Except.error e => Except.error e
      | Except.ok res => Except.ok (Val.dict (alistUpdate [("children", Val.list [])] res))

/-- The children loop of lines 185-186, collecting parsed children in order;
the first error aborts (uncaught exception). -/
def parseLayoutList : List LayoutObj → Except String (List Val)
  | [] => Except.ok []
  | x :: xs =>
      match parseLayout x with
      | Except.error e => Except.error e
      | Except.ok v =>
          match parseLayoutList xs with
          | Except.error e => Except.error e
          | Except.ok vs => Except.ok (v :: vs)
end

/-- Lines 122-131: the layout is parsed only when the crispy import succeeds
(modelled by the `crispyAvailable` flag of the export), the form has a
helper, the helper is a FormHelper, its layout is not None, and that layout
is a Layout instance (only the `layoutRoot` variant is one). -/
def layoutToParse (form : Form) : Option LayoutObj :=
  match form.helper with
  | some h =>
      if h.isFormHelper then
        match h.helperLayout with
        | some (LayoutObj.layoutRoot c kids) => some (LayoutObj.layoutRoot c kids)
        | _ => Option.none
      else Option.none
  | _ => Option.none

/-- Lines 150-158: resolve and run the per-type serializer for one field.
The try block covers the getattr capability lookup and the RemoteField
constructor: any error there is caught and replaced by an empty dict.  The
else branch calls remote_field.as_dict() OUTSIDE the try, so an error raised
there propagates. -/
def serializeOutcomeOf (rf : RemoteForm) (name : String) (fr : FieldRecord) :
    Except String (List (String × Val)) :=
  match fr.serialize ((alistGet name rf.form.initialMap).getD Val.vnone) with
  | Option.none => Except.ok []
  | some r => r

/-- Lines 160-161: force readonly = True on the dict when the field name is
in the readonly set. -/
def forceReadonly (rf : RemoteForm) (name : String) (fd0 : List (String × Val)) :
    List (String × Val) :=
  if name ∈ rf.readonly_fields then alistInsert fd0 "readonly" (Val.bool true) else fd0

/-- Lines 166-167: when the dict has no "initial" binding, set it to None. -/
def forceInitial (fd : List (String × Val)) : List (String × Val) :=
  if (alistGet "initial" fd).isSome then fd else alistInsert fd "initial" Val.vnone

/-- Lines 160-167 for one field dict: the readonly override followed by the
initial default. -/
def finishFieldDict (rf : RemoteForm) (name : String) (fd0 : List (String × Val)) :
    List (String × Val) :=
  forceInitial (forceReadonly rf name fd0)

/-- The per-field loop of lines 136-169: for each resolved name in order,
look the field up in the form mapping (a missing name would be an uncaught
KeyError), serialize it, finish the dict, store it under the name in the
fields mapping, and record its "initial" value in initial_data. -/
def buildFields (rf : RemoteForm) :
    List String → List (String × Val) → List (String × Val) →
    Except String (List (String × Val) × List (String × Val))
  | [], fm, idata => Except.ok (fm, idata)
  | name :: rest, fm, idata =>
    match alistGet name rf.form.fields with
    | Option.none => Except.error ("KeyError: " ++ name)
    | some fr =>
      match serializeOutcomeOf rf name fr with
      | Except.error e => Except.error e
      | Except.ok fd0 =>
          let fd2 := finishFieldDict rf name fd0
          buildFields rf rest (alistInsert fm name (Val.dict fd2))
            (alistInsert idata name ((alistGet "initial" fd2).getD Val.vnone))

/-- Lines 109-120: the export dict before the layout step and the field
loop, in assignment order.  Note that line 117 reads the fieldsets attribute
OF THE FORM (getattr(self.form, "fieldsets", [])), not the validated
self.fieldsets of the constructor. -/
def baseDict (rf : RemoteForm) : List (String × Val) :=
  [("title", Val.str rf.form.title),
   ("non_field_errors", Val.list (rf.form.nonFieldErrors.map Val.str)),
   ("label_suffix", Val.str rf.form.labelSuffix),
   ("is_bound", Val.bool rf.form.isBound),
   ("prefix", match rf.form.prefixStr with | some s => Val.str s | _ => Val.vnone),
   ("fields", Val.dict []),
   ("errors", rf.form.errorsVal),
   ("fieldsets", rf.form.fieldsetsAttr.getD (Val.list [])),
   ("ordered_fields", Val.list (rf.fields.map Val.str))]

/-- Lines 122-134: attach the parsed layout when the crispy capability is
available and the form carries a Layout; an ImportError (capability absent)
is caught and the key simply omitted, while a parse error propagates. -/
def withLayout (rf : RemoteForm) (crispyAvailable : Bool) :
    Except String (List (String × Val)) :=
  if crispyAvailable then
    match layoutToParse rf.form with
    | some l =>
        match parseLayout l with
        | Except.error e => Except.error e
        | Except.ok lv => Except.ok (alistInsert (baseDict rf) "layout" lv)
    | _ => Except.ok (baseDict rf)
  else Except.ok (baseDict rf)

/-- Modelled from the spec: resolve_promise (django_remote_forms.utils, not
under src/) walks the structure and replaces any lazy translatable string
with its concrete value.  The model value domain `Val` has no lazy variant,
so the walk is the identity map. -/
def resolvePromise (v : Val) : Val := v

/-- as_dict (lines 82-176): metadata dict, optional layout, the per-field
loop, then the data key - the raw submitted mapping when it is truthy
(non-empty), else the accumulated initial data - and a final
resolve_promise pass. -/
def rfAsDict (rf : RemoteForm) (crispyAvailable : Bool) : Except String Val :=
  match withLayout rf crispyAvailable with
  | Except.error e => Except.error e
  | Except.ok b =>
      match buildFields rf rf.fields [] [] with
      | Except.error e => Except.error e
      | Except.ok (fm, idata) =>
          Except.ok (resolvePromise (Val.dict (alistInsert
            (alistInsert b "fields" (Val.dict fm)) "data"
            (if rf.form.dataMap.isEmpty then Val.dict idata else Val.dict rf.form.dataMap))))

/-- One full export: RemoteForm(form, directives).as_dict(), with the
availability of the crispy-forms import as a flag. -/
def exportForm (form : Form) (d : Directives) (crispyAvailable : Bool) : Except String Val :=
  rfAsDict (remoteFormInit form d) crispyAvailable

/-! Concrete fixtures used by the closed theorems and witnesses. -/

/-- A field whose serializer returns a minimal dict carrying the resolved
initial value it was given. -/
def charFieldRec : FieldRecord :=
  ⟨fun v => some (Except.ok [("type", Val.str "text"), ("initial", v)])⟩

/-- A field whose serializer succeeds but omits the initial key. -/
def noInitialRec : FieldRecord :=
  ⟨fun _ => some (Except.ok [("type", Val.str "text")])⟩

/-- A field whose remote class instantiates but whose as_dict raises. -/
def failingRec : FieldRecord :=
  ⟨fun _ => some (Except.error "boom")⟩

/-- A field type with no matching Remote* capability: the getattr lookup (or
the constructor) raises and the code catches it. -/
def noCapabilityRec : FieldRecord :=
  ⟨fun _ => Option.none⟩

/-- A plain unbound form over the given fields, with no extras. -/
def mkForm (fs : List (String × FieldRecord)) : Form :=
  { fields := fs
    title := "TestForm"
    nonFieldErrors := []
    labelSuffix := ":"
    isBound := false
    prefixStr := Option.none
    errorsVal := Val.dict []
    fieldsetsAttr := Option.none
    dataMap := []
    initialMap := []
    meta := Option.none
    helper := Option.none }

/-- The empty directive set (no kwargs passed). -/
def noDirectives : Directives :=
  { exclude := [], incl := [], readonly := [], ordering := [], fieldsets := [] }

/-! Helper lemmas about the constructor. -/

/-- A directive that is a subset of the field-name set survives the
validation of lines 28-42 unchanged. -/
theorem validateDirective_of_sub (dir all : List String) (h : ∀ x ∈ dir, x ∈ all) :
    validateDirective dir all = dir := by
  unfold validateDirective
  rw [if_neg]
  rintro ⟨-, hns⟩
  exact hns h

/-- A valid non-empty include directive survives validation unchanged. -/
theorem includedV_of_valid (form : Form) (d : Directives) (h1 : d.incl ≠ [])
    (h3 : ∀ x ∈ d.incl, x ∈ allFieldNames form) : includedV form d = d.incl := by
  unfold includedV included0
  cases form.meta with
  | none => exact validateDirective_of_sub _ _ h3
  | some m =>
    show validateDirective (if d.incl ≠ [] then d.incl else m.metaFields.getD [])
      (allFieldNames form) = d.incl
    rw [if_pos h1]
    exact validateDirective_of_sub _ _ h3

/-- A valid non-empty exclude directive survives validation unchanged. -/
theorem excludedV_of_valid (form : Form) (d : Directives) (h1 : d.exclude ≠ [])
    (h3 : ∀ x ∈ d.exclude, x ∈ allFieldNames form) : excludedV form d = d.exclude := by
  unfold excludedV excluded0
  cases form.meta with
  | none => exact validateDirective_of_sub _ _ h3
  | some m =>
    show validateDirective (if d.exclude ≠ [] then d.exclude else m.metaExclude.getD [])
      (allFieldNames form) = d.exclude
    rw [if_pos h1]
    exact validateDirective_of_sub _ _ h3

/-- A valid readonly directive survives validation unchanged. -/
theorem readonlyV_of_valid (form : Form) (d : Directives)
    (h3 : ∀ x ∈ d.readonly, x ∈ allFieldNames form) : readonlyV form d = d.readonly :=
  validateDirective_of_sub _ _ h3

/-- The union check of line 44 fires whenever either validated set is
non-empty, so the final exclude set is ALWAYS empty: either both sets were
just reset, or both were already empty. -/
theorem excludedFinal_nil (form : Form) (d : Directives) : excludedFinal form d = [] := by
  unfold excludedFinal includedFinal
  by_cases h : includedV form d ≠ [] ∨ excludedV form d ≠ []
  · simp [h]
  · push_neg at h
    simp [h.1, h.2]

/-- Because the final exclude set is always empty, the resolved field list is
exactly the chosen iteration order: no field is ever excluded. -/
theorem resolvedFields_eq_ordered (form : Form) (d : Directives) :
    resolvedFields form d = orderedFinal form d := by
  unfold resolvedFields
  rw [excludedFinal_nil]
  refine List.filter_eq_self.mpr ?_
  intro a _
  simp

/-! Accessors into an export result, used to state closed theorems about
concrete exports. -/

/-- The top-level key sequence of a successful export. -/
def exportKeys (r : Except String Val) : List String :=
  match r with
  | Except.ok (Val.dict l) => l.map Prod.fst
  | _ => []

/-- The serialized dict exported for one field name, when present. -/
def exportFieldDict (r : Except String Val) (name : String) : Option (List (String × Val)) :=
  match r with
  | Except.ok (Val.dict l) =>
      match alistGet "fields" l with
      | some (Val.dict fm) =>
          match alistGet name fm with
          | some (Val.dict fd) => some fd
          | _ => Option.none
      | _ => Option.none
  | _ => Option.none

/-- The value exported under a given top-level key, when present. -/
def exportTop (r : Except String Val) (key : String) : Option Val :=
  match r with
  | Except.ok (Val.dict l) => alistGet key l
  | _ => Option.none

/-! Fixtures for the constructor-level claims: the spec scenario form with
fields name and age. -/

/-- The scenario form with fields name and age, in that declared order. -/
def formNA : Form := mkForm [("name", charFieldRec), ("age", charFieldRec)]

/-- Scenario B directives: exclude = set(age), include = set(). -/
def dirsC1 : Directives := { noDirectives with exclude := ["age"] }

/-- C1: the spec says exclude=set(age), include=set() on the name/age form
resolves to [name] with age absent from the fields mapping.  The code
(line 44) tests the truthiness of the UNION of include and exclude, so a
non-empty exclude alone triggers the conflict reset: the exclude set is
emptied, the resolved list is [name, age], and age IS present in the
fields mapping of the export. -/
theorem C1_scenarioB_code_behavior :
    (remoteFormInit formNA dirsC1).fields = ["name", "age"] ∧
    (remoteFormInit formNA dirsC1).excluded_fields = [] ∧
    (exportFieldDict (exportForm formNA dirsC1 false) "age").isSome = true :=
  ⟨rfl, rfl, rfl⟩

/-- Counterexample directives for C2: include, exclude and ordering all
non-empty and valid; the ordering directive is a proper subset. -/
def dirsC2x : Directives :=
  { noDirectives with exclude := ["age"], incl := ["name"], ordering := ["age"] }

/-- C2 counterexample: include = set(name) and exclude = set(age) are both
non-empty valid subsets of the name/age form, and both are indeed reset, but
with the valid ordering directive [age] the resolved field list is [age]: it
does NOT equal the full field list of the form (name is missing). -/
theorem C2_counterexample :
    dirsC2x.incl ≠ [] ∧ dirsC2x.exclude ≠ [] ∧
    (∀ x ∈ dirsC2x.incl, x ∈ allFieldNames formNA) ∧
    (∀ x ∈ dirsC2x.exclude, x ∈ allFieldNames formNA) ∧
    "name" ∈ allFieldNames formNA ∧
    "name" ∉ (remoteFormInit formNA dirsC2x).fields := by
  decide

/-- C2 (amended): when include and exclude are both non-empty and valid
subsets, both are reset to empty and nothing is excluded: the resolved field
list equals the chosen iteration order, and in particular equals all of the
fields of the form in natural order whenever the ordering directive is empty. -/
theorem C2_conflict_reset (form : Form) (d : Directives)
    (h1 : d.incl ≠ []) (h2 : d.exclude ≠ [])
    (h3 : ∀ x ∈ d.incl, x ∈ allFieldNames form)
    (h4 : ∀ x ∈ d.exclude, x ∈ allFieldNames form) :
    (remoteFormInit form d).included_fields = [] ∧
    (remoteFormInit form d).excluded_fields = [] ∧
    (remoteFormInit form d).fields = (remoteFormInit form d).ordered_fields ∧
    (d.ordering = [] → (remoteFormInit form d).fields = allFieldNames form) := by
  have hin : includedV form d = d.incl := includedV_of_valid form d h1 h3
  refine ⟨?_, ?_, ?_, ?_⟩
  · show includedFinal form d = []
    unfold includedFinal
    rw [if_pos (Or.inl (hin ▸ h1))]
  · exact excludedFinal_nil form d
  · exact resolvedFields_eq_ordered form d
  · intro hord
    show resolvedFields form d = allFieldNames form
    rw [resolvedFields_eq_ordered]
    unfold orderedFinal orderedV validateDirective
    simp [hord]

/-- Witness directives for C2: both directives non-empty and valid, no
ordering. -/
def dirsC2w : Directives := { noDirectives with exclude := ["age"], incl := ["name"] }

/-- Witness for the amended C2 at the name/age form with include = set(name)
and exclude = set(age). -/
theorem C2_conflict_reset_witness :
    (dirsC2w.incl ≠ [] ∧ dirsC2w.exclude ≠ [] ∧
      (∀ x ∈ dirsC2w.incl, x ∈ allFieldNames formNA) ∧
      (∀ x ∈ dirsC2w.exclude, x ∈ allFieldNames formNA)) ∧
    ((remoteFormInit formNA dirsC2w).included_fields = [] ∧
      (remoteFormInit formNA dirsC2w).excluded_fields = [] ∧
      (remoteFormInit formNA dirsC2w).fields = (remoteFormInit formNA dirsC2w).ordered_fields ∧
      (dirsC2w.ordering = [] → (remoteFormInit formNA dirsC2w).fields = allFieldNames formNA)) :=
  ⟨⟨by decide, by decide, by decide, by decide⟩,
    C2_conflict_reset formNA dirsC2w (by decide) (by decide) (by decide) (by decide)⟩

/-- Counterexample directives for C3: a valid ordering with a duplicate. -/
def dirsC3x : Directives := { noDirectives with ordering := ["name", "name"] }

/-- C3 counterexample: the ordering directive [name, name] is non-empty and a
valid subset of the name/age field set, yet the resolved field list is
[name, name], which has a duplicate. -/
theorem C3_counterexample :
    dirsC3x.ordering ≠ [] ∧
    (∀ x ∈ dirsC3x.ordering, x ∈ allFieldNames formNA) ∧
    (remoteFormInit formNA dirsC3x).fields = ["name", "name"] ∧
    ¬ (remoteFormInit formNA dirsC3x).fields.Nodup := by
  decide

/-- C3 (amended): unconditionally, the resolved field list is a subset of
the field names of the form and equals the ordering directive VERBATIM when
that is non-empty and valid (duplicated entries included), else the natural
declared order of the form; the no-duplicates part holds exactly under the
extra proviso that the ordering directive has no duplicates (the natural
order, being the key sequence of a dict, has none - a modelling
hypothesis here). -/
theorem C3_resolved_invariants (form : Form) (d : Directives)
    (hnat : (allFieldNames form).Nodup) :
    (d.ordering.Nodup → (remoteFormInit form d).fields.Nodup) ∧
    (∀ n ∈ (remoteFormInit form d).fields, n ∈ allFieldNames form) ∧
    (if d.ordering ≠ [] ∧ (∀ x ∈ d.ordering, x ∈ allFieldNames form)
      then (remoteFormInit form d).fields = d.ordering
      else (remoteFormInit form d).fields = allFieldNames form) := by
  have hfe : (remoteFormInit form d).fields = orderedFinal form d :=
    resolvedFields_eq_ordered form d
  by_cases h : d.ordering ≠ [] ∧ (∀ x ∈ d.ordering, x ∈ allFieldNames form)
  · have hov : orderedV form d = d.ordering := validateDirective_of_sub _ _ h.2
    have hfin : orderedFinal form d = d.ordering := by
      unfold orderedFinal
      rw [hov, if_neg h.1]
    rw [hfe, hfin]
    exact ⟨fun hord => hord, h.2, by rw [if_pos h]⟩
  · have hov : orderedV form d = [] := by
      unfold orderedV validateDirective
      rcases Decidable.em (d.ordering = []) with he | he
      · simp [he]
      · have hns : ¬ (∀ x ∈ d.ordering, x ∈ allFieldNames form) := fun hall => h ⟨he, hall⟩
        rw [if_pos ⟨he, hns⟩]
    have hfin : orderedFinal form d = allFieldNames form := by
      unfold orderedFinal
      rw [hov, if_pos rfl]
    rw [hfe, hfin]
    exact ⟨fun _ => hnat, fun n hn => hn, by rw [if_neg h]⟩

/-! Association-list lemmas. -/

/-- Looking up the key just assigned yields the assigned value. -/
theorem alistGet_insert_self {α : Type} (d : List (String × α)) (k : String) (v : α) :
    alistGet k (alistInsert d k v) = some v := by
  induction d with
  | nil => simp [alistGet, alistInsert]
  | cons p rest ih =>
    obtain ⟨k2, w⟩ := p
    by_cases h : k2 = k
    · simp [alistInsert, h, alistGet]
    · simp [alistInsert, h, alistGet, ih]

/-- Assigning one key leaves lookups of other keys unchanged. -/
theorem alistGet_insert_ne {α : Type} (d : List (String × α)) (k q : String) (v : α)
    (h : q ≠ k) : alistGet q (alistInsert d k v) = alistGet q d := by
  induction d with
  | nil => simp [alistGet, alistInsert, Ne.symm h]
  | cons p rest ih =>
    obtain ⟨k2, w⟩ := p
    by_cases h2 : k2 = k
    · subst h2
      simp [alistInsert, alistGet, Ne.symm h]
    · simp only [alistInsert, if_neg h2, alistGet]
      by_cases h3 : k2 = q
      · simp [h3]
      · simp [h3, ih]

/-- A lookup succeeds exactly when the key is among the dict keys. -/
theorem alistGet_isSome_iff_mem {α : Type} (d : List (String × α)) (k : String) :
    (alistGet k d).isSome ↔ k ∈ d.map Prod.fst := by
  induction d with
  | nil => simp [alistGet]
  | cons p rest ih =>
    obtain ⟨k2, w⟩ := p
    by_cases h : k2 = k
    · subst h
      simp [alistGet]
    · have hga : alistGet k ((k2, w) :: rest) = alistGet k rest := by simp [alistGet, h]
      rw [hga, ih]
      constructor
      · intro hm
        simp [hm]
      · intro hm
        have h5 : k = k2 ∨ k ∈ rest.map Prod.fst := by
          simpa using hm
        rcases h5 with he | he
        · exact absurd he (Ne.symm h)
        · exact he

/-- Assigning an existing key keeps the key sequence unchanged. -/
theorem alistInsert_keys_mem {α : Type} (d : List (String × α)) (k : String) (v : α)
    (h : k ∈ d.map Prod.fst) :
    (alistInsert d k v).map Prod.fst = d.map Prod.fst := by
  induction d with
  | nil => simp at h
  | cons p rest ih =>
    obtain ⟨k2, w⟩ := p
    by_cases h2 : k2 = k
    · simp [alistInsert, h2]
    · have hk : k ∈ rest.map Prod.fst := by
        have h5 : k = k2 ∨ k ∈ rest.map Prod.fst := by
          simpa using h
        rcases h5 with he | he
        · exact absurd he.symm h2
        · exact he
      simp [alistInsert, h2, ih hk]

/-- Assigning a fresh key appends it to the key sequence. -/
theorem alistInsert_keys_not_mem {α : Type} (d : List (String × α)) (k : String) (v : α)
    (h : k ∉ d.map Prod.fst) :
    (alistInsert d k v).map Prod.fst = d.map Prod.fst ++ [k] := by
  induction d with
  | nil => simp [alistInsert]
  | cons p rest ih =>
    obtain ⟨k2, w⟩ := p
    have h2 : k2 ≠ k := by
      intro he
      exact h (by simp [he])
    have hk : k ∉ rest.map Prod.fst := fun hm => h (by simp [hm])
    simp [alistInsert, h2, ih hk]

/-! Lemmas about the per-field finishing steps. -/

/-- After the initial default, the dict always has an "initial" binding. -/
theorem forceInitial_isSome (fd : List (String × Val)) :
    (alistGet "initial" (forceInitial fd)).isSome := by
  unfold forceInitial
  by_cases h : (alistGet "initial" fd).isSome
  · rw [if_pos h]
    exact h
  · rw [if_neg h, alistGet_insert_self]
    rfl

/-- The initial default does not change other bindings. -/
theorem forceInitial_get_other (fd : List (String × Val)) (k : String) (h : k ≠ "initial") :
    alistGet k (forceInitial fd) = alistGet k fd := by
  unfold forceInitial
  by_cases hi : (alistGet "initial" fd).isSome
  · rw [if_pos hi]
  · rw [if_neg hi, alistGet_insert_ne _ _ _ _ h]

/-- For a readonly field the override puts readonly = True in the dict. -/
theorem forceReadonly_readonly (rf : RemoteForm) (name : String) (fd0 : List (String × Val))
    (h : name ∈ rf.readonly_fields) :
    alistGet "readonly" (forceReadonly rf name fd0) = some (Val.bool true) := by
  unfold forceReadonly
  rw [if_pos h, alistGet_insert_self]

/-- The finished dict always carries an "initial" binding. -/
theorem finishFieldDict_initial (rf : RemoteForm) (name : String) (fd0 : List (String × Val)) :
    (alistGet "initial" (finishFieldDict rf name fd0)).isSome :=
  forceInitial_isSome _

/-- The finished dict of a readonly field carries readonly = True. -/
theorem finishFieldDict_readonly (rf : RemoteForm) (name : String) (fd0 : List (String × Val))
    (h : name ∈ rf.readonly_fields) :
    alistGet "readonly" (finishFieldDict rf name fd0) = some (Val.bool true) := by
  unfold finishFieldDict
  rw [forceInitial_get_other _ _ (by decide)]
  exact forceReadonly_readonly rf name fd0 h

/-! Lemmas about the per-field loop. -/

/-- Names not processed by the loop keep their bindings in both accumulating
mappings. -/
theorem buildFields_preserve (rf : RemoteForm) (names : List String) :
    ∀ (fm idata fm2 idata2 : List (String × Val)),
      buildFields rf names fm idata = Except.ok (fm2, idata2) →
      ∀ n, n ∉ names →
        alistGet n fm2 = alistGet n fm ∧ alistGet n idata2 = alistGet n idata := by
  induction names with
  | nil =>
    intro fm idata fm2 idata2 h n _
    unfold buildFields at h
    cases h
    exact ⟨rfl, rfl⟩
  | cons name rest ih =>
    intro fm idata fm2 idata2 h n hn
    unfold buildFields at h
    split at h
    · cases h
    next fr hf =>
      split at h
      · cases h
      next fd0 hs =>
        have hnr : n ∉ rest := fun hr => hn (List.mem_cons_of_mem _ hr)
        have hne : n ≠ name := fun he => hn (he ▸ List.mem_cons_self _ _)
        obtain ⟨ha, hb⟩ := ih _ _ _ _ h n hnr
        rw [ha, hb, alistGet_insert_ne _ _ _ _ hne, alistGet_insert_ne _ _ _ _ hne]
        exact ⟨rfl, rfl⟩

/-- For every name the loop processed, the fields mapping holds exactly the
finished dict of its (deterministic) serialization outcome, and the initial
accumulator holds the "initial" value of that dict. -/
theorem buildFields_mem (rf : RemoteForm) (names : List String) :
    ∀ (fm idata fm2 idata2 : List (String × Val)),
      buildFields rf names fm idata = Except.ok (fm2, idata2) →
      ∀ n, n ∈ names →
      ∃ fr fd0, alistGet n rf.form.fields = some fr ∧
        serializeOutcomeOf rf n fr = Except.ok fd0 ∧
        alistGet n fm2 = some (Val.dict (finishFieldDict rf n fd0)) ∧
        alistGet n idata2 =
          some ((alistGet "initial" (finishFieldDict rf n fd0)).getD Val.vnone) := by
  induction names with
  | nil =>
    intro fm idata fm2 idata2 h n hn
    cases hn
  | cons name rest ih =>
    intro fm idata fm2 idata2 h n hn
    unfold buildFields at h
    split at h
    · cases h
    next fr hf =>
      split at h
      · cases h
      next fd0 hs =>
        by_cases hrest : n ∈ rest
        · exact ih _ _ _ _ h n hrest
        · have hne : n = name := by
            rcases List.mem_cons.mp hn with he | he
            · exact he
            · exact absurd he hrest
          subst hne
          obtain ⟨ha, hb⟩ := buildFields_preserve rf rest _ _ _ _ h n hrest
          refine ⟨fr, fd0, hf, hs, ?_, ?_⟩
          · rw [ha, alistGet_insert_self]
          · rw [hb, alistGet_insert_self]

/-- The loop succeeds when every processed name is a form field and no
serialization outcome is an error. -/
theorem buildFields_ok (rf : RemoteForm) (names : List String)
    (hnames : ∀ n ∈ names, n ∈ (rf.form.fields.map Prod.fst))
    (hser : ∀ n fr, alistGet n rf.form.fields = some fr →
      ∀ e, serializeOutcomeOf rf n fr ≠ Except.error e) :
    ∀ fm idata, ∃ fm2 idata2,
      buildFields rf names fm idata = Except.ok (fm2, idata2) := by
  induction names with
  | nil =>
    intro fm idata
    exact ⟨fm, idata, rfl⟩
  | cons name rest ih =>
    intro fm idata
    have hmem : name ∈ rf.form.fields.map Prod.fst := hnames name (List.mem_cons_self _ _)
    have hsome : (alistGet name rf.form.fields).isSome :=
      (alistGet_isSome_iff_mem _ _).mpr hmem
    obtain ⟨fr, hf⟩ := Option.isSome_iff_exists.mp hsome
    have hrest : ∀ n ∈ rest, n ∈ rf.form.fields.map Prod.fst :=
      fun n hn => hnames n (List.mem_cons_of_mem _ hn)
    cases hs : serializeOutcomeOf rf name fr with
    | error e => exact absurd hs (hser name fr hf e)
    | ok fd0 =>
      obtain ⟨fm2, idata2, hb⟩ := ih hrest
        (alistInsert fm name (Val.dict (finishFieldDict rf name fd0)))
        (alistInsert idata name
          ((alistGet "initial" (finishFieldDict rf name fd0)).getD Val.vnone))
      refine ⟨fm2, idata2, ?_⟩
      unfold buildFields
      rw [hf]
      show (match serializeOutcomeOf rf name fr with
        | Except.error e => Except.error e
        | Except.ok fd0 =>
            buildFields rf rest (alistInsert fm name (Val.dict (finishFieldDict rf name fd0)))
              (alistInsert idata name
                ((alistGet "initial" (finishFieldDict rf name fd0)).getD Val.vnone))) =
        Except.ok (fm2, idata2)
      rw [hs]
      exact hb

/-- Ordering directive used by the C3 witness. -/
def dirsC3w : Directives := { noDirectives with ordering := ["age"] }

/-- Witness for the amended C3 at the name/age form, at two concrete
ordering directives: the duplicate-free [age], and the duplicated
[name, name] of the counterexample - for which the unconditional conjuncts
show the directive passing into the list verbatim. -/
theorem C3_resolved_invariants_witness :
    (allFieldNames formNA).Nodup ∧
    ((dirsC3w.ordering.Nodup → (remoteFormInit formNA dirsC3w).fields.Nodup) ∧
     (∀ n ∈ (remoteFormInit formNA dirsC3w).fields, n ∈ allFieldNames formNA) ∧
     (if dirsC3w.ordering ≠ [] ∧ (∀ x ∈ dirsC3w.ordering, x ∈ allFieldNames formNA)
       then (remoteFormInit formNA dirsC3w).fields = dirsC3w.ordering
       else (remoteFormInit formNA dirsC3w).fields = allFieldNames formNA)) ∧
    ((dirsC3x.ordering.Nodup → (remoteFormInit formNA dirsC3x).fields.Nodup) ∧
     (∀ n ∈ (remoteFormInit formNA dirsC3x).fields, n ∈ allFieldNames formNA) ∧
     (if dirsC3x.ordering ≠ [] ∧ (∀ x ∈ dirsC3x.ordering, x ∈ allFieldNames formNA)
       then (remoteFormInit formNA dirsC3x).fields = dirsC3x.ordering
       else (remoteFormInit formNA dirsC3x).fields = allFieldNames formNA)) :=
  ⟨by decide, C3_resolved_invariants formNA dirsC3w (by decide),
    C3_resolved_invariants formNA dirsC3x (by decide)⟩

/-! Structural lemmas about the export assembly. -/

/-- Validation either empties a directive or keeps it, and what is kept is a
subset of the reference list. -/
theorem validateDirective_cases (dir all : List String) :
    validateDirective dir all = [] ∨
      (validateDirective dir all = dir ∧ ∀ x ∈ dir, x ∈ all) := by
  unfold validateDirective
  by_cases h : dir ≠ [] ∧ ¬ (∀ x ∈ dir, x ∈ all)
  · exact Or.inl (if_pos h)
  · right
    refine ⟨if_neg h, ?_⟩
    rcases Decidable.em (dir = []) with he | he
    · intro x hx
      rw [he] at hx
      cases hx
    · rcases Decidable.em (∀ x ∈ dir, x ∈ all) with hs | hs
      · exact hs
      · exact absurd ⟨he, hs⟩ h

/-- The chosen iteration order only contains form field names. -/
theorem orderedFinal_sub_all (form : Form) (d : Directives) :
    ∀ n ∈ orderedFinal form d, n ∈ allFieldNames form := by
  unfold orderedFinal orderedV
  rcases validateDirective_cases d.ordering (allFieldNames form) with h | ⟨h1, h2⟩
  · rw [h, if_pos rfl]
    exact fun n hn => hn
  · rw [h1]
    rcases Decidable.em (d.ordering = []) with he | he
    · rw [he, if_pos rfl]
      exact fun n hn => hn
    · rw [if_neg he]
      exact h2

/-- The resolved field list only contains form field names. -/
theorem resolved_sub_all (form : Form) (d : Directives) :
    ∀ n ∈ (remoteFormInit form d).fields, n ∈ allFieldNames form := by
  have hfe : (remoteFormInit form d).fields = orderedFinal form d :=
    resolvedFields_eq_ordered form d
  rw [hfe]
  exact orderedFinal_sub_all form d

/-- The key sequence of the metadata dict of lines 109-120. -/
theorem baseDict_keys (rf : RemoteForm) :
    (baseDict rf).map Prod.fst =
      ["title", "non_field_errors", "label_suffix", "is_bound", "prefix", "fields",
       "errors", "fieldsets", "ordered_fields"] := rfl

/-- The key sequence after the layout step: the metadata keys, plus "layout"
exactly when the capability is available and the form carries a Layout. -/
theorem withLayout_keys (rf : RemoteForm) (cap : Bool) (b : List (String × Val))
    (h : withLayout rf cap = Except.ok b) :
    b.map Prod.fst =
      ["title", "non_field_errors", "label_suffix", "is_bound", "prefix", "fields",
       "errors", "fieldsets", "ordered_fields"] ++
      (if cap = true ∧ (layoutToParse rf.form).isSome then ["layout"] else []) := by
  unfold withLayout at h
  cases cap with
  | false =>
    rw [if_neg (by simp)] at h
    cases h
    simp [baseDict_keys]
  | true =>
    rw [if_pos rfl] at h
    split at h
    next l hl =>
      split at h
      · cases h
      next lv hp =>
        cases h
        rw [alistInsert_keys_not_mem _ _ _ (by rw [baseDict_keys]; decide), baseDict_keys]
        rw [if_pos ⟨rfl, by rw [hl]; rfl⟩]
    next hl =>
      cases h
      rw [baseDict_keys, if_neg ?_]
      · simp
      · rintro ⟨-, hs⟩
        cases hlp : layoutToParse rf.form with
        | none => rw [hlp] at hs; cases hs
        | some l => exact hl l hlp

/-- Destructor for a successful as_dict call: the layout step and the field
loop both succeeded, and the result is the metadata dict with the fields
mapping written over its placeholder and the data entry appended. -/
theorem rfAsDict_ok_elim (rf : RemoteForm) (cap : Bool) (v : Val)
    (h : rfAsDict rf cap = Except.ok v) :
    ∃ b fm idata, withLayout rf cap = Except.ok b ∧
      buildFields rf rf.fields [] [] = Except.ok (fm, idata) ∧
      v = Val.dict (alistInsert (alistInsert b "fields" (Val.dict fm)) "data"
        (if rf.form.dataMap.isEmpty then Val.dict idata else Val.dict rf.form.dataMap)) := by
  unfold rfAsDict at h
  split at h
  · cases h
  next b hb =>
    split at h
    · cases h
    next fm idata hbf =>
      cases h
      exact ⟨b, fm, idata, hb, hbf, rfl⟩

/-- The dispatch outcome is an error exactly when the as_dict stage raised:
capability-lookup failures are mapped to an empty dict, never to an error. -/
theorem serializeOutcomeOf_error_iff (rf : RemoteForm) (n : String) (fr : FieldRecord)
    (e : String) :
    serializeOutcomeOf rf n fr = Except.error e ↔
      fr.serialize ((alistGet n rf.form.initialMap).getD Val.vnone) =
        some (Except.error e) := by
  unfold serializeOutcomeOf
  cases hs : fr.serialize ((alistGet n rf.form.initialMap).getD Val.vnone) with
  | none => simp
  | some r =>
    cases r with
    | error e2 => simp
    | ok fd => simp

/-- A missing capability yields the empty dict outcome. -/
theorem serializeOutcomeOf_none (rf : RemoteForm) (n : String) (fr : FieldRecord)
    (h : fr.serialize ((alistGet n rf.form.initialMap).getD Val.vnone) = Option.none) :
    serializeOutcomeOf rf n fr = Except.ok [] := by
  unfold serializeOutcomeOf
  rw [h]

/-- Constructor form of a successful as_dict call. -/
theorem rfAsDict_ok_intro (rf : RemoteForm) (cap : Bool) (b fm idata : List (String × Val))
    (hb : withLayout rf cap = Except.ok b)
    (hbf : buildFields rf rf.fields [] [] = Except.ok (fm, idata)) :
    rfAsDict rf cap = Except.ok (Val.dict (alistInsert (alistInsert b "fields" (Val.dict fm))
      "data" (if rf.form.dataMap.isEmpty then Val.dict idata
              else Val.dict rf.form.dataMap))) := by
  unfold rfAsDict
  rw [hb]
  show (match buildFields rf rf.fields [] [] with
    | Except.error e => Except.error e
    | Except.ok (fm, idata) =>
        Except.ok (resolvePromise (Val.dict (alistInsert
          (alistInsert b "fields" (Val.dict fm)) "data"
          (if rf.form.dataMap.isEmpty then Val.dict idata
           else Val.dict rf.form.dataMap))))) = _
  rw [hbf]
  rfl


/-- A parse error of the attached layout aborts the layout step. -/
theorem withLayout_error (rf : RemoteForm) (l : LayoutObj) (e : String)
    (hl : layoutToParse rf.form = some l) (hp : parseLayout l = Except.error e) :
    withLayout rf true = Except.error e := by
  unfold withLayout
  rw [if_pos rfl, hl]
  show (match parseLayout l with
    | Except.error e => Except.error e
    | Except.ok lv => Except.ok (alistInsert (baseDict rf) "layout" lv)) = _
  rw [hp]

/-- A layout-step error aborts the whole as_dict call: nothing is returned. -/
theorem rfAsDict_error_of_withLayout (rf : RemoteForm) (cap : Bool) (e : String)
    (hw : withLayout rf cap = Except.error e) : rfAsDict rf cap = Except.error e := by
  unfold rfAsDict
  rw [hw]

/-! Claim C4. -/

/-- A fieldset declaration naming only the field name, which is in the form
and in the resolved field list of the name/age form. -/
def fsDeclC4 : List FieldsetEntry := [⟨"main", some ["name"]⟩]

/-- Directives carrying that valid fieldset declaration. -/
def dirsC4 : Directives := { noDirectives with fieldsets := fsDeclC4 }

/-- C4: the constructor does validate and keep the supplied declaration (all
referenced names are form fields and resolved fields, so self.fieldsets
survives), yet the exported "fieldsets" value is the form attribute default
[] (line 117 reads getattr(self.form, "fieldsets", []), not the validated
self.fieldsets): a valid declaration does NOT pass through to the export. -/
theorem C4_valid_fieldsets_not_exported :
    (∀ x ∈ fieldsetFieldNames dirsC4, x ∈ allFieldNames formNA) ∧
    (∀ x ∈ fieldsetFieldNames dirsC4, x ∈ (remoteFormInit formNA dirsC4).fields) ∧
    (remoteFormInit formNA dirsC4).fieldsets = fsDeclC4 ∧
    formNA.fieldsetsAttr = Option.none ∧
    exportTop (exportForm formNA dirsC4 false) "fieldsets" = some (Val.list []) :=
  ⟨by decide, by decide, rfl, rfl, rfl⟩

/-! Claim C5. -/

/-- A bound form whose submitted-data mapping is empty (Django sets is_bound
from `data is not None`, so a form bound to an empty mapping is exactly
this state). -/
def formC5x : Form := { mkForm [("name", noInitialRec)] with isBound := true }

/-- C5 counterexample: the form is bound, but because the code tests the
truthiness of form.data (line 171) rather than is_bound, the exported data
entry is the accumulated initial mapping, not the raw submitted mapping. -/
theorem C5_counterexample :
    formC5x.isBound = true ∧ formC5x.dataMap = [] ∧
    exportTop (exportForm formC5x noDirectives false) "data" =
      some (Val.dict [("name", Val.vnone)]) ∧
    exportTop (exportForm formC5x noDirectives false) "data" ≠
      some (Val.dict formC5x.dataMap) := by
  refine ⟨rfl, rfl, rfl, ?_⟩
  intro hc
  rw [show exportTop (exportForm formC5x noDirectives false) "data" =
      some (Val.dict [("name", Val.vnone)]) from rfl,
    show formC5x.dataMap = [] from rfl] at hc
  injection hc with h1
  injection h1 with h2
  cases h2

/-- C5 (amended): the data entry is the raw submitted mapping exactly when
that mapping is non-empty (truthy); otherwise - including for a bound form
with an empty mapping - it is the initial-value mapping accumulated by the
field loop. -/
theorem C5_data_precedence (form : Form) (d : Directives) (cap : Bool) (v : Val)
    (h : exportForm form d cap = Except.ok v) :
    ∃ l fm idata, v = Val.dict l ∧
      buildFields (remoteFormInit form d) (remoteFormInit form d).fields [] [] =
        Except.ok (fm, idata) ∧
      alistGet "data" l =
        some (if form.dataMap.isEmpty then Val.dict idata else Val.dict form.dataMap) := by
  obtain ⟨b, fm, idata, hb, hbf, hv⟩ := rfAsDict_ok_elim (remoteFormInit form d) cap v h
  refine ⟨_, fm, idata, hv, hbf, ?_⟩
  rw [alistGet_insert_self]
  rfl

/-- The value of the export used as the C5 witness. -/
def vC5w : Val :=
  match exportForm formNA noDirectives false with
  | Except.ok v => v
  | _ => Val.vnone

/-- Witness for the amended C5 at the unbound name/age form. -/
theorem C5_data_precedence_witness :
    exportForm formNA noDirectives false = Except.ok vC5w ∧
    (∃ l fm idata, vC5w = Val.dict l ∧
      buildFields (remoteFormInit formNA noDirectives)
        (remoteFormInit formNA noDirectives).fields [] [] = Except.ok (fm, idata) ∧
      alistGet "data" l =
        some (if formNA.dataMap.isEmpty then Val.dict idata else Val.dict formNA.dataMap)) :=
  ⟨rfl, C5_data_precedence formNA noDirectives false vC5w rfl⟩

/-! Claim C6. -/

/-- A form whose only field raises inside as_dict. -/
def formC6x : Form := mkForm [("name", failingRec)]

/-- C6 counterexample: the capability of the field resolves and instantiates, its
as_dict raises - and the exception escapes the whole export call, because
line 158 runs in the else branch of the try of lines 151-154. -/
theorem C6_counterexample :
    failingRec.serialize Val.vnone = some (Except.error "boom") ∧
    exportForm formC6x noDirectives false = Except.error "boom" :=
  ⟨rfl, rfl⟩

/-- C6 (amended): failures to resolve or instantiate the per-type capability
are absorbed - the field gets the finished empty dict and the export
continues and succeeds (given the other stages do not fail); but an error
raised by the as_dict serialization stage itself is NOT absorbed (see the
counterexample). -/
theorem C6_capability_failures_absorbed (form : Form) (d : Directives) (cap : Bool)
    (hlay : ∀ l, layoutToParse form = some l → ∃ lv, parseLayout l = Except.ok lv)
    (hser : ∀ n fr, alistGet n form.fields = some fr → ∀ e,
      fr.serialize ((alistGet n form.initialMap).getD Val.vnone) ≠
        some (Except.error e)) :
    (∃ v, exportForm form d cap = Except.ok v) ∧
    (∀ n fr, n ∈ (remoteFormInit form d).fields →
      alistGet n form.fields = some fr →
      fr.serialize ((alistGet n form.initialMap).getD Val.vnone) = Option.none →
      ∃ l fm, exportForm form d cap = Except.ok (Val.dict l) ∧
        alistGet "fields" l = some (Val.dict fm) ∧
        alistGet n fm =
          some (Val.dict (finishFieldDict (remoteFormInit form d) n []))) := by
  have hwl : ∃ b, withLayout (remoteFormInit form d) cap = Except.ok b := by
    cases cap with
    | false => exact ⟨baseDict (remoteFormInit form d), rfl⟩
    | true =>
      unfold withLayout
      rw [if_pos rfl,
        show layoutToParse (remoteFormInit form d).form = layoutToParse form from rfl]
      cases hl : layoutToParse form with
      | none => exact ⟨baseDict (remoteFormInit form d), rfl⟩
      | some l =>
        obtain ⟨lv, hp⟩ := hlay l hl
        refine ⟨alistInsert (baseDict (remoteFormInit form d)) "layout" lv, ?_⟩
        show (match parseLayout l with
          | Except.error e => Except.error e
          | Except.ok lv => Except.ok (alistInsert (baseDict (remoteFormInit form d))
              "layout" lv)) = _
        rw [hp]
  obtain ⟨b, hb⟩ := hwl
  have hok : ∃ fm idata, buildFields (remoteFormInit form d)
      (remoteFormInit form d).fields [] [] = Except.ok (fm, idata) := by
    obtain ⟨fm, idata, hbf⟩ := buildFields_ok (remoteFormInit form d)
      (remoteFormInit form d).fields (resolved_sub_all form d)
      (fun n fr hf e he =>
        hser n fr hf e ((serializeOutcomeOf_error_iff (remoteFormInit form d) n fr e).mp he))
      [] []
    exact ⟨fm, idata, hbf⟩
  obtain ⟨fm, idata, hbf⟩ := hok
  have hexp := rfAsDict_ok_intro (remoteFormInit form d) cap b fm idata hb hbf
  constructor
  · exact ⟨_, hexp⟩
  · intro n fr hn hf hnone
    obtain ⟨fr2, fd0, hf2, hs2, hget, hi⟩ :=
      buildFields_mem (remoteFormInit form d) (remoteFormInit form d).fields
        _ _ _ _ hbf n hn
    have hfr : fr2 = fr := by
      have hf3 : alistGet n form.fields = some fr2 := hf2
      rw [hf] at hf3
      injection hf3 with h5
      exact h5.symm
    subst hfr
    have hs0 : serializeOutcomeOf (remoteFormInit form d) n fr2 = Except.ok [] :=
      serializeOutcomeOf_none _ _ _ hnone
    rw [hs0] at hs2
    injection hs2 with h6
    refine ⟨_, fm, hexp, ?_, ?_⟩
    · rw [alistGet_insert_ne _ _ _ _ (by decide), alistGet_insert_self]
    · rw [hget, h6]

/-- A form whose only field has no serialization capability. -/
def formC6w : Form := mkForm [("name", noCapabilityRec)]

/-- Witness for the amended C6: the capability-missing field is absorbed and
the export succeeds, with the defaulted dict exported for that field. -/
theorem C6_capability_failures_absorbed_witness :
    ((∀ l, layoutToParse formC6w = some l → ∃ lv, parseLayout l = Except.ok lv) ∧
     (∀ n fr, alistGet n formC6w.fields = some fr → ∀ e,
        fr.serialize ((alistGet n formC6w.initialMap).getD Val.vnone) ≠
          some (Except.error e))) ∧
    ((∃ v, exportForm formC6w noDirectives false = Except.ok v) ∧
     (∀ n fr, n ∈ (remoteFormInit formC6w noDirectives).fields →
       alistGet n formC6w.fields = some fr →
       fr.serialize ((alistGet n formC6w.initialMap).getD Val.vnone) = Option.none →
       ∃ l fm, exportForm formC6w noDirectives false = Except.ok (Val.dict l) ∧
         alistGet "fields" l = some (Val.dict fm) ∧
         alistGet n fm =
           some (Val.dict (finishFieldDict (remoteFormInit formC6w noDirectives) n [])))) := by
  have hlay : ∀ l, layoutToParse formC6w = some l → ∃ lv, parseLayout l = Except.ok lv := by
    intro l hl
    cases hl
  have hser : ∀ n fr, alistGet n formC6w.fields = some fr → ∀ e,
      fr.serialize ((alistGet n formC6w.initialMap).getD Val.vnone) ≠
        some (Except.error e) := by
    intro n fr hf e hc
    have hfr : fr = noCapabilityRec := by
      simp only [formC6w, mkForm] at hf
      unfold alistGet at hf
      split at hf
      · injection hf with h5
        exact h5.symm
      · cases hf
    rw [hfr] at hc
    exact Option.noConfusion hc
  exact ⟨⟨hlay, hser⟩,
    C6_capability_failures_absorbed formC6w noDirectives false hlay hser⟩

/-! Claim C7. -/

/-- C7: the exported dict of every resolved field carries an "initial" binding
(possibly None): lines 166-167 force it after serialization, including for
failed/empty dicts. -/
theorem C7_initial_always_present (form : Form) (d : Directives) (cap : Bool) (v : Val)
    (h : exportForm form d cap = Except.ok v) (n : String)
    (hn : n ∈ (remoteFormInit form d).fields) :
    ∃ l fm fd, v = Val.dict l ∧ alistGet "fields" l = some (Val.dict fm) ∧
      alistGet n fm = some (Val.dict fd) ∧ (alistGet "initial" fd).isSome := by
  obtain ⟨b, fm, idata, hb, hbf, hv⟩ := rfAsDict_ok_elim (remoteFormInit form d) cap v h
  obtain ⟨fr, fd0, hf, hs, hget, hi⟩ :=
    buildFields_mem (remoteFormInit form d) (remoteFormInit form d).fields _ _ _ _ hbf n hn
  refine ⟨_, fm, _, hv, ?_, hget, finishFieldDict_initial _ _ _⟩
  rw [alistGet_insert_ne _ _ _ _ (by decide), alistGet_insert_self]

/-- A form whose field serializer omits the initial key. -/
def formC7w : Form := mkForm [("nick", noInitialRec)]

/-- The value of the export used as the C7 witness. -/
def vC7w : Val :=
  match exportForm formC7w noDirectives false with
  | Except.ok v => v
  | _ => Val.vnone

/-- Witness for C7: a serializer that omits "initial" still yields an
exported dict with the key. -/
theorem C7_initial_always_present_witness :
    exportForm formC7w noDirectives false = Except.ok vC7w ∧
    "nick" ∈ (remoteFormInit formC7w noDirectives).fields ∧
    (∃ l fm fd, vC7w = Val.dict l ∧ alistGet "fields" l = some (Val.dict fm) ∧
      alistGet "nick" fm = some (Val.dict fd) ∧ (alistGet "initial" fd).isSome) :=
  ⟨rfl, by decide,
    C7_initial_always_present formC7w noDirectives false vC7w rfl "nick" (by decide)⟩

/-! Claim C8. -/

/-- C8: every name of the validated readonly directive that is in the
resolved field list gets readonly = True in its exported dict, whatever the
serializer produced (lines 160-161 run after serialization). -/
theorem C8_readonly_override (form : Form) (d : Directives) (cap : Bool) (v : Val)
    (hro : ∀ x ∈ d.readonly, x ∈ allFieldNames form)
    (h : exportForm form d cap = Except.ok v) (n : String)
    (hn1 : n ∈ d.readonly) (hn2 : n ∈ (remoteFormInit form d).fields) :
    ∃ l fm fd, v = Val.dict l ∧ alistGet "fields" l = some (Val.dict fm) ∧
      alistGet n fm = some (Val.dict fd) ∧
      alistGet "readonly" fd = some (Val.bool true) := by
  obtain ⟨b, fm, idata, hb, hbf, hv⟩ := rfAsDict_ok_elim (remoteFormInit form d) cap v h
  obtain ⟨fr, fd0, hf, hs, hget, hi⟩ :=
    buildFields_mem (remoteFormInit form d) (remoteFormInit form d).fields _ _ _ _ hbf n hn2
  have hrd : n ∈ (remoteFormInit form d).readonly_fields := by
    show n ∈ readonlyV form d
    rw [readonlyV_of_valid form d hro]
    exact hn1
  refine ⟨_, fm, _, hv, ?_, hget, finishFieldDict_readonly _ _ _ hrd⟩
  rw [alistGet_insert_ne _ _ _ _ (by decide), alistGet_insert_self]

/-- Readonly directive used by the C8 witness. -/
def dirsC8w : Directives := { noDirectives with readonly := ["age"] }

/-- The value of the export used as the C8 witness. -/
def vC8w : Val :=
  match exportForm formNA dirsC8w false with
  | Except.ok v => v
  | _ => Val.vnone

/-- Witness for C8 at the name/age form with readonly = set(age). -/
theorem C8_readonly_override_witness :
    (∀ x ∈ dirsC8w.readonly, x ∈ allFieldNames formNA) ∧
    exportForm formNA dirsC8w false = Except.ok vC8w ∧
    "age" ∈ dirsC8w.readonly ∧
    "age" ∈ (remoteFormInit formNA dirsC8w).fields ∧
    (∃ l fm fd, vC8w = Val.dict l ∧ alistGet "fields" l = some (Val.dict fm) ∧
      alistGet "age" fm = some (Val.dict fd) ∧
      alistGet "readonly" fd = some (Val.bool true)) :=
  ⟨by decide, rfl, by decide, by decide,
    C8_readonly_override formNA dirsC8w false vC8w (by decide) rfl "age"
      (by decide) (by decide)⟩

/-! Claim C9. -/

/-- C9: a Field layout node wrapping more than one field name is fatal: the
parser raises NotImplementedError (lines 202-204), and any layout parse
error aborts the whole export call with that error - no partial result. -/
theorem C9_multi_field_reference_fatal (c : String) (refs : List String)
    (attrs : List (String × String)) (form : Form) (d : Directives)
    (h : refs.length > 1) :
    parseLayout (LayoutObj.fieldObj c refs attrs) =
      Except.error "NotImplementedError: We only support 1 field at a time in Field object" ∧
    (∀ l e, layoutToParse form = some l → parseLayout l = Except.error e →
      exportForm form d true = Except.error e) := by
  constructor
  · have hc : parseLayoutClass (LayoutObj.fieldObj c refs attrs) =
        Except.error
          "NotImplementedError: We only support 1 field at a time in Field object" := by
      show (if refs.length > 1 then
          Except.error
            "NotImplementedError: We only support 1 field at a time in Field object"
        else
          match refs with
          | [] => Except.error "IndexError: list index out of range"
          | f :: _ =>
              finishAttrs (alistInsert (alistInsert [("type", Val.str (mslugify c))]
                "name" (Val.str f)) "attrs" (Val.dict (strAttrsVal attrs)))) = _
      rw [if_pos h]
    simp only [parseLayout]
    rw [hc]
  · intro l e hl hp
    show rfAsDict (remoteFormInit form d) true = Except.error e
    exact rfAsDict_error_of_withLayout _ _ _ (withLayout_error (remoteFormInit form d) l e hl hp)

/-- A layout whose only child is a Field wrapping two names. -/
def layC9 : LayoutObj :=
  LayoutObj.layoutRoot "Layout" [LayoutObj.fieldObj "Field" ["first", "last"] []]

/-- The name/age form carrying that layout through a FormHelper. -/
def formC9w : Form := { formNA with helper := some ⟨true, some layC9⟩ }

/-- Witness for C9: with the two-name Field in the layout, the export call
itself returns the NotImplementedError. -/
theorem C9_multi_field_reference_fatal_witness :
    (["first", "last"] : List String).length > 1 ∧
    exportForm formC9w noDirectives true =
      Except.error "NotImplementedError: We only support 1 field at a time in Field object" :=
  ⟨by decide,
    (C9_multi_field_reference_fatal "Field" ["first", "last"] [] formC9w noDirectives
      (by decide)).2 layC9 _ rfl rfl⟩

/-! Claim C10. -/

/-- C10: a successful export has exactly the ten fixed top-level keys, in
assignment order, with "layout" inserted before "data" exactly when the
crispy capability is available and the form carries a Layout; an absent
capability merely omits the key. -/
theorem C10_export_key_set (form : Form) (d : Directives) (cap : Bool) (v : Val)
    (h : exportForm form d cap = Except.ok v) :
    ∃ l, v = Val.dict l ∧
      l.map Prod.fst =
        ["title", "non_field_errors", "label_suffix", "is_bound", "prefix", "fields",
         "errors", "fieldsets", "ordered_fields"] ++
        (if cap = true ∧ (layoutToParse form).isSome then ["layout"] else []) ++
        ["data"] := by
  obtain ⟨b, fm, idata, hb, hbf, hv⟩ := rfAsDict_ok_elim (remoteFormInit form d) cap v h
  refine ⟨_, hv, ?_⟩
  have hbk := withLayout_keys _ _ _ hb
  have h1 : (alistInsert b "fields" (Val.dict fm)).map Prod.fst = b.map Prod.fst :=
    alistInsert_keys_mem _ _ _ (by rw [hbk]; simp)
  have h2 : "data" ∉ (alistInsert b "fields" (Val.dict fm)).map Prod.fst := by
    rw [h1, hbk]
    by_cases hc : cap = true ∧ (layoutToParse (remoteFormInit form d).form).isSome
    · rw [if_pos hc]
      decide
    · rw [if_neg hc]
      decide
  rw [alistInsert_keys_not_mem _ _ _ h2, h1, hbk]
  rfl

/-- A form carrying an empty Layout, used for the C10 witness. -/
def formC10w : Form :=
  { formNA with helper := some ⟨true, some (LayoutObj.layoutRoot "Layout" [])⟩ }

/-- The value of the export used as the C10 witness. -/
def vC10w : Val :=
  match exportForm formC10w noDirectives true with
  | Except.ok v => v
  | _ => Val.vnone

/-- Witness for C10 at a form with a present layout and the capability
available: the key list includes "layout" before "data". -/
theorem C10_export_key_set_witness :
    exportForm formC10w noDirectives true = Except.ok vC10w ∧
    (∃ l, vC10w = Val.dict l ∧
      l.map Prod.fst =
        ["title", "non_field_errors", "label_suffix", "is_bound", "prefix", "fields",
         "errors", "fieldsets", "ordered_fields"] ++
        (if true = true ∧ (layoutToParse formC10w).isSome then ["layout"] else []) ++
        ["data"]) :=
  ⟨rfl, C10_export_key_set formC10w noDirectives true vC10w rfl⟩

end DjangoRemoteForms
